import Mathlib

/-!
Verification of the greenlet trampoline module (src/uitools/trampoline.py).

The module drives a stackful coroutine (a greenlet) that runs a user body on
the privileged (main-thread) context.  When the body calls `bounce(f, args)`,
the coroutine switches the pending-call triple back to the trampoline loop,
which invokes the call directly on the driving context and then resumes the
coroutine (via the main-thread executor) with the result, or throws the raised
exception back in at the suspension point.

Shallow embedding, translated from the source:

  * `Body C V` is the user body as a tree of greenlet events: `ret` (the body
    returns), `raiseB` (an exception escapes the body), `switchP out k` (the
    body switches value `out` to the parent greenlet and continues as `k`
    applied to the resume outcome), `block d rest` (the body performs a direct
    blocking action, such as `time.sleep(d)` inside `qpath`, inline on the
    privileged context, without switching).
  * `go` is the `while g is None or not g.dead` loop of `trampoline`,
    one-to-one with the source; `RMode` records whether the pending executor
    handoff is a `g.switch` (whose result is assigned to `res`) or a `g.throw`
    (whose result the source discards, so `res` keeps its old value - the
    `afterThrow` mode carries that stale value).
  * The executor `cimt` models `call_in_main_thread`: it is applied to the
    outcome of every privileged segment (the value the greenlet switches out,
    or the exception that escapes it).  A synchronous executor is the identity
    (`mainThreadSync`, the `main_thread` helper of the module test).
  * `events` and `fate` are ghost instrumentation: the ordered list of actions
    the run performs (`startEv` for construct-and-start, `callEv c` for a
    direct invocation on the driving context, `resumeEv` / `throwEv` for a
    resume on the privileged context, `blockEv d` for an inline blocking
    action), and how the task itself ended (`completed`, `failed`, or
    `abandoned` when the loop stopped while the task was still alive).

The Python 2 scoping of `except Exception as exc` is assumed (the binding
survives the block), as the module targets a Python 2 host (Maya).
-/

/-- A Python exception: its identity (type and message collapsed into a tag)
and whether it is an instance of `Exception` (the loop catches only those;
`KeyboardInterrupt` and `SystemExit` are not). -/
structure Exc where
  tag : String
  isException : Bool
deriving DecidableEq

/-- A Python value as seen by the trampoline loop: `None`, a pending-call
triple `(func, args, kwargs)` (the tuple switched out by `bounce`), or any
other value. -/
inductive PyVal (C V : Type) where
  | pynone
  | tup (c : C)
  | val (v : V)
deriving DecidableEq

/-- The user body as a tree of greenlet events.  `switchP out k` is
`greenlet.getcurrent().parent.switch(out)`: the continuation `k` receives the
value the trampoline resumes with (`Except.ok`) or the exception it throws in
(`Except.error`).  `block d rest` is a direct blocking call (`time.sleep(d)`)
executed inline on the privileged context without suspending. -/
inductive Body (C V : Type) where
  | ret (v : PyVal C V)
  | raiseB (e : Exc)
  | switchP (out : PyVal C V) (k : Except Exc (PyVal C V) → Body C V)
  | block (d : Int) (rest : Body C V)

/-- Ghost trace events of one trampoline run. -/
inductive Ev (C : Type) where
  | startEv
  | callEv (c : C)
  | resumeEv
  | throwEv
  | blockEv (d : Int)
deriving DecidableEq

/-- True exactly on a direct-call event (a pending call executed on the
driving context). -/
def Ev.isCall {C : Type} : Ev C → Bool
  | .callEv _ => true
  | _ => false

/-- How the task itself ended: it returned, an exception escaped its body, or
the loop stopped while the task was still alive (abandoned). -/
inductive Fate (C V : Type) where
  | completed (v : PyVal C V)
  | failed (e : Exc)
  | abandoned
deriving DecidableEq

/-- Result of one trampoline run: what the `trampoline` call returns or
raises, the ghost event trace, and the ghost task fate. -/
structure RunLog (C V : Type) where
  result : Except Exc (PyVal C V)
  events : List (Ev C)
  fate : Fate C V

/-- Mode of the pending privileged handoff: after `g.switch` the executor
result is assigned to `res`; after `g.throw` the source discards it, so `res`
keeps the stale value carried here. -/
inductive RMode (C V : Type) where
  | normal
  | afterThrow (stale : PyVal C V)

/-- The value of the loop variable `res` at the top of the loop: the executor
result in normal mode, the stale old value after a throw. -/
def pickRes {C V : Type} : RMode C V → PyVal C V → PyVal C V
  | .normal, v => v
  | .afterThrow stale, _ => stale

/-- The `TypeError` raised when `func, args, kwargs = res` fails to unpack a
non-tuple value (an `Exception`, so the loop catches it). -/
def unpackExc : Exc := ⟨"TypeError: cannot unpack pending call", true⟩

/-- The trampoline loop of the source, one iteration per resume.  The first
argument of each equation is the body segment currently running inside a
`call_in_main_thread`; when it ends, the executor `cimt` is applied to its
outcome.  Then (`switchP` case) the loop runs one iteration on `res`: if
`res` is not `None` it unpacks it and invokes the call directly on the
driving context (`execCall`); a raised `Exception` is caught into `exc` and
thrown into the task (the executor result being discarded, `res` stays
stale), a non-`Exception` failure escapes the loop; otherwise the task is
resumed with `res` via the executor. -/
def go {C V : Type} (cimt : Except Exc (PyVal C V) → Except Exc (PyVal C V))
    (execCall : C → Except Exc (PyVal C V)) : Body C V → RMode C V → RunLog C V
  | .block d rest, m =>
      let r := go cimt execCall rest m
      ⟨r.result, .blockEv d :: r.events, r.fate⟩
  | .ret v, m =>
      match cimt (.ok v) with
      | .error e2 => ⟨.error e2, [], .completed v⟩
      | .ok v2 => ⟨.ok (pickRes m v2), [], .completed v⟩
  | .raiseB e, m =>
      match cimt (.error e) with
      | .error e2 => ⟨.error e2, [], .failed e⟩
      | .ok v2 => ⟨.ok (pickRes m v2), [], .failed e⟩
  | .switchP out k, m =>
      match cimt (.ok out) with
      | .error e2 => ⟨.error e2, [], .abandoned⟩
      | .ok v2 =>
        match pickRes m v2 with
        | .pynone =>
            let r := go cimt execCall (k (.ok .pynone)) .normal
            ⟨r.result, .resumeEv :: r.events, r.fate⟩
        | .tup c =>
            match execCall c with
            | .ok v3 =>
                let r := go cimt execCall (k (.ok v3)) .normal
                ⟨r.result, .callEv c :: .resumeEv :: r.events, r.fate⟩
            | .error e3 =>
                if e3.isException then
                  let r := go cimt execCall (k (.error e3)) (.afterThrow (.tup c))
                  ⟨r.result, .callEv c :: .throwEv :: r.events, r.fate⟩
                else ⟨.error e3, [.callEv c], .abandoned⟩
        | .val v3 =>
            let r := go cimt execCall (k (.error unpackExc)) (.afterThrow (.val v3))
            ⟨r.result, .throwEv :: r.events, r.fate⟩

/-- One full run of `trampoline(call_in_main_thread, func, *args, **kwargs)`:
construct-and-start the greenlet through the executor, then loop. -/
def trampolineRun {C V A : Type}
    (cimt : Except Exc (PyVal C V) → Except Exc (PyVal C V))
    (execCall : C → Except Exc (PyVal C V))
    (func : A → Body C V) (args : A) : RunLog C V :=
  let r := go cimt execCall (func args) .normal
  ⟨r.result, .startEv :: r.events, r.fate⟩

/-- The value `trampoline` returns (`Except.ok`) or the failure it raises
(`Except.error`). -/
def trampoline {C V A : Type}
    (cimt : Except Exc (PyVal C V) → Except Exc (PyVal C V))
    (execCall : C → Except Exc (PyVal C V))
    (func : A → Body C V) (args : A) : Except Exc (PyVal C V) :=
  (trampolineRun cimt execCall func args).result

/-- `decorate(call_in_main_thread)`: returns a decorator whose wrapper calls
`trampoline(call_in_main_thread, func, *args, **kwargs)` and returns or
raises exactly what that call produces. -/
def decorate {C V A : Type}
    (cimt : Except Exc (PyVal C V) → Except Exc (PyVal C V))
    (execCall : C → Except Exc (PyVal C V)) :
    (A → Body C V) → A → Except Exc (PyVal C V) :=
  fun func => fun args => trampoline cimt execCall func args

/-- A synchronous executor (the `main_thread` helper of the module test): it
just runs the function and hands its result, or failure, straight back. -/
def mainThreadSync {C V : Type} :
    Except Exc (PyVal C V) → Except Exc (PyVal C V) :=
  fun r => r

/-- `bounce(func, *args, **kwargs)`: with a callable, switch the pending-call
triple to the parent and return (or raise) the resume outcome; with no
callable, switch `None`, discard the resume value and return `None`. -/
def bounce {C V : Type} (c : Option C)
    (k : Except Exc (PyVal C V) → Body C V) : Body C V :=
  match c with
  | some c0 => .switchP (.tup c0) k
  | none => .switchP .pynone (fun r =>
      match r with
      | .ok _ => k (.ok .pynone)
      | .error e => k (.error e))

/-- The concrete pending calls used by the module helpers: `_raise(e)`,
`time.sleep(s)`, and an arbitrary user callable. -/
inductive PCall where
  | raiseC (e : Exc)
  | sleepC (s : Int)
  | userC (name : String)
deriving DecidableEq

/-- Direct invocation of the concrete pending calls on the driving context:
`_raise(e)` raises `e`; `time.sleep` and user callables return `None`. -/
def execStd : PCall → Except Exc (PyVal PCall String)
  | .raiseC e => .error e
  | .sleepC _ => .ok .pynone
  | .userC _ => .ok .pynone

/-- `sleep(seconds)`: `bounce(time.sleep, seconds)`, returning the bounce
result to the continuation. -/
def sleep {V : Type} (s : Int)
    (k : Except Exc (PyVal PCall V) → Body PCall V) : Body PCall V :=
  bounce (some (.sleepC s)) k

/-- `raise_(e)`: `bounce(_raise, e)` with the bounce result discarded; the
continuation receives `none` on a normal return and `some e2` when the bounce
raised `e2` at the suspension point. -/
def raise_ {V : Type} (e : Exc)
    (k : Option Exc → Body PCall V) : Body PCall V :=
  bounce (some (.raiseC e)) (fun r =>
    match r with
    | .ok _ => k none
    | .error e2 => k (some e2))

/-- `ValueError('expected')`, the failure of the module test scenario. -/
def vErr : Exc := ⟨"ValueError: expected", true⟩

/-- `KeyboardInterrupt`: a failure that is not an instance of `Exception`. -/
def kbInt : Exc := ⟨"KeyboardInterrupt", false⟩

/-- The body of the C1 scenario:
`try: raise_(ValueError('expected')); except ValueError: return 'caught'`.
If the bounce returns without raising, the `else` path runs instead. -/
def bodyC1 : Body PCall String :=
  raise_ vErr (fun o =>
    match o with
    | some e => if e = vErr then .ret (.val ("caught")) else .raiseB e
    | none => .ret (.val ("not-raised")))

/-- A body whose pending call raises `KeyboardInterrupt`, wrapped in a
catch-all handler: `try: bounce(_raise, KeyboardInterrupt()); except: return
'caught'`. -/
def bodyC6 : Body PCall String :=
  bounce (some (.raiseC kbInt)) (fun r =>
    match r with
    | .error _ => .ret (.val ("caught"))
    | .ok _ => .ret (.val ("not-raised")))

/-- `RuntimeError('boom')`, a failure used by the relay counterexamples. -/
def rteBoom : Exc := ⟨"RuntimeError: boom", true⟩

/-- Body with exactly one suspend-with-call invocation, whose call raises,
and one no-op suspend, each wrapped in a catch-all handler:
`try: raise_(RuntimeError('boom')); except: pass` then
`try: bounce(); except: pass` then `return 'done'`. -/
def bodyC5 : Body PCall String :=
  raise_ rteBoom (fun _ =>
    bounce none (fun _ => .ret (.val ("done"))))

/-- Body observing the outcome of a no-op `bounce()` that follows a caught
relayed failure: `try: raise_(RuntimeError('boom')); except: pass` then
`x = bounce()`, recording whether the bounce returned or raised. -/
def bodyC9 : Body PCall String :=
  raise_ rteBoom (fun _ =>
    bounce none (fun r =>
      match r with
      | .ok _ => .ret (.val ("bounce-returned"))
      | .error _ => .ret (.val ("bounce-raised"))))

/-- A variant of `execStd` in which every failure a pending call raises is an
instance of `Exception`. -/
def execExcOnly : PCall → Except Exc (PyVal PCall String)
  | .raiseC e => .error ⟨e.tag, true⟩
  | .sleepC _ => .ok .pynone
  | .userC _ => .ok .pynone

/-- Outcome of `qpath`: the non-empty match result, or the `None` the source
falls back to when the timeout elapses without `strict`. -/
inductive QRes (M : Type) where
  | found (res : List M)
  | noneResult
deriving DecidableEq

/-- The `RuntimeError` that `qpath` raises in strict mode. -/
def notFoundExc : Exc := ⟨"RuntimeError: could not resolve qpath", true⟩

/-- The `qpath` polling loop of the source, as a pure function.  `matchQ i`
is the result of the `_qpath(root, query)` invocation on attempt `i`;
`elapsed i` is the reading `time.time() - start_time` taken right after that
attempt.  Per iteration: invoke the matcher, return a non-empty result
immediately; otherwise break once the elapsed time reaches `timeout`
(raising `RuntimeError` when `strict`, else returning `None`), and sleep
before the next attempt otherwise.  The extra `Nat` arguments are fuel
(`none` when exhausted) and the attempt index; the returned `Nat` counts the
matcher invocations performed. -/
def qpath {M : Type} (matchQ : Nat → List M) (elapsed : Nat → Int)
    (timeout : Int) (strict : Bool) :
    Nat → Nat → Option (Except Exc (QRes M) × Nat)
  | 0, _ => none
  | f + 1, i =>
      match matchQ i with
      | x :: xs => some (.ok (.found (x :: xs)), 1)
      | [] =>
          if timeout ≤ elapsed i then
            some (if strict then (.error notFoundExc, 1) else (.ok .noneResult, 1))
          else
            match qpath matchQ elapsed timeout strict f (i + 1) with
            | none => none
            | some (r, n) => some (r, n + 1)

/-- The same `qpath` loop as it executes inside a trampolined task body: the
wait between attempts is the direct blocking call `time.sleep(delay)` run
inline on the privileged context (a `block` node), not a suspension.  The
continuation `k` receives the return value of `qpath`. -/
def qpathBody {M C V : Type} (matchQ : Nat → List M) (elapsed : Nat → Int)
    (timeout delay : Int) (strict : Bool)
    (k : QRes M → Body C V) : Nat → Nat → Body C V
  | 0, _ => .ret .pynone
  | f + 1, i =>
      match matchQ i with
      | x :: xs => k (.found (x :: xs))
      | [] =>
          if timeout ≤ elapsed i then
            (if strict then .raiseB notFoundExc else k .noneResult)
          else .block delay (qpathBody matchQ elapsed timeout delay strict k f (i + 1))

/-- A task body that calls `qpath` with a matcher that never matches,
`timeout = 2` and `repeat_delay = 1`, with the clock advancing one unit per
attempt: two waits happen before the timeout elapses. -/
def bodyC2 : Body PCall String :=
  qpathBody (fun _ => ([] : List Nat)) (fun i => (i : Int)) 2 1 false
    (fun _ => .ret .pynone) 10 0

/-- A task body that performs a chain of direct blocking actions and then
returns, never invoking the suspend primitive.  In this embedding every
suspension-free completing body has this shape. -/
def straight {C V : Type} : List Int → PyVal C V → Body C V
  | [], v => .ret v
  | d :: ds, v => .block d (straight ds v)

/-! Theorems. -/

/-- C1: for the scenario body `try: raise_(ValueError); except ValueError:
return 'caught'` run through a synchronous executor, the failure raised by
the pending call is indeed re-delivered into the body, the handler catches
it, the loop continues, and the failure never reaches the caller of `run`
(the task fate is `completed 'caught'` and the result is an `ok`).  But the
source discards the return value of `call_in_main_thread(g.throw, exc)`, so
`res` still holds the stale pending-call triple when the task finishes, and
`run` returns that triple instead of `'caught'`: the claim that `run`
returns exactly v fails on the code. -/
theorem trampoline_caught_relay_returns_stale_tuple :
    (trampolineRun mainThreadSync execStd (fun _ : Unit => bodyC1) ()).fate
        = Fate.completed (.val ("caught"))
    ∧ (trampolineRun mainThreadSync execStd (fun _ : Unit => bodyC1) ()).result
        = Except.ok (.tup (.raiseC vErr))
    ∧ (trampolineRun mainThreadSync execStd (fun _ : Unit => bodyC1) ()).events
        = [.startEv, .callEv (.raiseC vErr), .throwEv]
    ∧ (PyVal.tup (.raiseC vErr) : PyVal PCall String) ≠ PyVal.val ("caught") :=
  ⟨rfl, rfl, rfl, fun h => PyVal.noConfusion h⟩

/-- C6 counterexample: a pending call that raises `KeyboardInterrupt` (not an
instance of `Exception`) is not captured by the `except Exception` clause of
the loop: the failure propagates out of the loop uncaught (the run result is
that error), and it is never delivered into the task, whose catch-all handler
never runs (fate `abandoned`, not `completed 'caught'`).  This refutes the
claim for failures of arbitrary kind. -/
theorem trampoline_base_exception_leaks :
    (trampolineRun mainThreadSync execStd (fun _ : Unit => bodyC6) ()).result
        = Except.error kbInt
    ∧ (trampolineRun mainThreadSync execStd (fun _ : Unit => bodyC6) ()).fate
        = Fate.abandoned
    ∧ (trampolineRun mainThreadSync execStd (fun _ : Unit => bodyC6) ()).events
        = [.startEv, .callEv (.raiseC kbInt)]
    ∧ kbInt.isException = false :=
  ⟨rfl, rfl, rfl, rfl⟩

/-- C5: the body of `bodyC5` performs exactly one suspend-with-call
invocation (the raising `raise_` bounce; the second suspend is a no-op
`bounce()` carrying no call), yet the driving context executes two direct
calls: because the source never assigns the result of
`call_in_main_thread(g.throw, exc)`, the loop re-invokes the stale pending
call at the following handoff.  The trace shows the raising call executed
twice, refuting call count == N. -/
theorem trampoline_call_count_mismatch_after_relay :
    (trampolineRun mainThreadSync execStd (fun _ : Unit => bodyC5) ()).events
        = [.startEv, .callEv (.raiseC rteBoom), .throwEv,
           .callEv (.raiseC rteBoom), .throwEv]
    ∧ (trampolineRun mainThreadSync execStd (fun _ : Unit => bodyC5) ()).events.countP
          Ev.isCall = 2
    ∧ (trampolineRun mainThreadSync execStd (fun _ : Unit => bodyC5) ()).fate
        = Fate.completed (.val ("done"))
    ∧ (trampolineRun mainThreadSync execStd (fun _ : Unit => bodyC5) ()).result
        = Except.ok (.tup (.raiseC rteBoom)) :=
  ⟨rfl, rfl, rfl, rfl⟩

/-- C9: when the trampoline variable `res` still holds a stale pending call
(after a relayed failure whose `g.throw` result the source discards), a no-op
`bounce()` handoff does trigger a direct call: the loop re-invokes the stale
call, and since that call raises again, `bounce()` raises at the suspension
point instead of returning `None`.  The body of `bodyC9` observes the raise
(fate `completed 'bounce-raised'`), and the trace shows a direct call between
the no-op yield and the task resume. -/
theorem noop_bounce_after_relay_executes_call :
    (trampolineRun mainThreadSync execStd (fun _ : Unit => bodyC9) ()).fate
        = Fate.completed (.val ("bounce-raised"))
    ∧ (trampolineRun mainThreadSync execStd (fun _ : Unit => bodyC9) ()).events
        = [.startEv, .callEv (.raiseC rteBoom), .throwEv,
           .callEv (.raiseC rteBoom), .throwEv]
    ∧ (trampolineRun mainThreadSync execStd (fun _ : Unit => bodyC9) ()).events.countP
          Ev.isCall = 2 :=
  ⟨rfl, rfl, rfl⟩

/-- C2: running `qpath` (never-matching matcher, timeout 2, delay 1) inside a
trampolined task performs its two waits as direct blocking `time.sleep`
actions inline on the privileged context (`blockEv` trace entries produced
during the single start segment) and issues no pending call at all: the event
trace contains zero `callEv` entries, so no suspend-based sleep is ever
handed to the driving context, contradicting the claim. -/
theorem qpath_wait_blocks_privileged_context :
    (trampolineRun mainThreadSync execStd (fun _ : Unit => bodyC2) ()).events
        = [.startEv, .blockEv 1, .blockEv 1]
    ∧ (trampolineRun mainThreadSync execStd (fun _ : Unit => bodyC2) ()).events.countP
          Ev.isCall = 0
    ∧ (trampolineRun mainThreadSync execStd (fun _ : Unit => bodyC2) ()).result
        = Except.ok .pynone :=
  ⟨rfl, rfl, rfl⟩

/-- C8: the wrapper produced by `decorate(executor)` applied to a body and
arguments returns, or raises, exactly what
`trampoline(executor, body, *args, **kwargs)` produces, for every executor,
body and arguments: the wrapper adds no behaviour of its own. -/
theorem decorate_wrapper_equals_trampoline :
    ∀ (C V A : Type) (cimt : Except Exc (PyVal C V) → Except Exc (PyVal C V))
      (execCall : C → Except Exc (PyVal C V)) (func : A → Body C V) (args : A),
      decorate cimt execCall func args = trampoline cimt execCall func args :=
  fun _ _ _ _ _ _ _ => rfl

/-- Helper: driving a suspension-free completing body performs only its
inline blocking actions and yields its return value. -/
theorem go_straight {C V : Type} (execCall : C → Except Exc (PyVal C V)) :
    ∀ (ds : List Int) (v : PyVal C V),
      go mainThreadSync execCall (straight ds v) .normal
        = ⟨.ok v, ds.map Ev.blockEv, .completed v⟩
  | [], v => rfl
  | d :: ds, v => by
      show go mainThreadSync execCall (.block d (straight ds v)) .normal = _
      rw [go, go_straight execCall ds v]
      rfl

/-- C3: a task body that completes without ever invoking the suspend
primitive (in this embedding, exactly the bodies `straight ds v`: a chain of
inline blocking actions ending in a return) makes `run` return exactly the
body result, with the event trace consisting of the single
construct-and-start handoff and the inline actions performed during it: the
driving context executes zero pending calls and zero resumes. -/
theorem trampoline_no_suspend_returns_value :
    ∀ (C V A : Type) (execCall : C → Except Exc (PyVal C V)) (ds : List Int)
      (v : PyVal C V) (args : A),
      trampolineRun mainThreadSync execCall (fun _ => straight ds v) args
          = ⟨.ok v, .startEv :: ds.map Ev.blockEv, .completed v⟩
      ∧ (trampolineRun mainThreadSync execCall (fun _ => straight ds v) args).events.countP
            Ev.isCall = 0 := by
  intro C V A execCall ds v args
  have h : trampolineRun mainThreadSync execCall (fun _ => straight ds v) args
      = ⟨.ok v, .startEv :: ds.map Ev.blockEv, .completed v⟩ := by
    show (⟨(go mainThreadSync execCall (straight ds v) .normal).result, _, _⟩ : RunLog C V) = _
    rw [go_straight execCall ds v]
  refine ⟨h, ?_⟩
  rw [h]
  simp [List.countP_cons, Ev.isCall, List.countP_map, Function.comp]

/-- Helper: under a synchronous executor, whenever the task ends in the
`failed` fate the run result is exactly that failure. -/
theorem go_fate_failed {C V : Type} (execCall : C → Except Exc (PyVal C V)) :
    ∀ (b : Body C V) (m : RMode C V) (e : Exc),
      (go mainThreadSync execCall b m).fate = Fate.failed e →
      (go mainThreadSync execCall b m).result = Except.error e := by
  intro b
  induction b with
  | ret v =>
      intro m e h
      exact Fate.noConfusion h
  | raiseB e0 =>
      intro m e h
      exact congrArg Except.error (Fate.failed.inj h)
  | block d rest ih =>
      intro m e h
      exact ih m e h
  | switchP out k ih =>
      intro m e h
      rcases m with _ | stale
      · cases out with
        | pynone => exact ih _ _ e h
        | val v3 => exact ih _ _ e h
        | tup c =>
            rw [go.eq_4] at h ⊢
            simp only [mainThreadSync, pickRes] at h ⊢
            generalize hg : execCall c = w at h ⊢
            cases w with
            | ok v3 => exact ih _ _ e h
            | error e3 =>
                by_cases hb : e3.isException = true
                · simp only [hb, if_true] at h ⊢
                  exact ih _ _ e h
                · simp [hb] at h
      · cases stale with
        | pynone => exact ih _ _ e h
        | val v3 => exact ih _ _ e h
        | tup c =>
            rw [go.eq_4] at h ⊢
            simp only [mainThreadSync, pickRes] at h ⊢
            generalize hg : execCall c = w at h ⊢
            cases w with
            | ok v3 => exact ih _ _ e h
            | error e3 =>
                by_cases hb : e3.isException = true
                · simp only [hb, if_true] at h ⊢
                  exact ih _ _ e h
                · simp [hb] at h

/-- C4: for every task body that terminates by raising a failure not caught
inside the body (the run fate is `failed e`), `trampoline`, run through a
synchronous executor, raises that same failure, with the original payload
intact, to its caller. -/
theorem trampoline_unhandled_failure_propagates :
    ∀ (C V A : Type) (execCall : C → Except Exc (PyVal C V))
      (func : A → Body C V) (args : A) (e : Exc),
      (trampolineRun mainThreadSync execCall func args).fate = Fate.failed e →
      (trampolineRun mainThreadSync execCall func args).result = Except.error e := by
  intro C V A execCall func args e h
  exact go_fate_failed execCall (func args) .normal e h

/-- Witness for C4: a body whose `ValueError` escapes uncaught makes the run
raise exactly that `ValueError`. -/
theorem trampoline_unhandled_failure_propagates_witness :
    (trampolineRun mainThreadSync execStd
        (fun _ : Unit => (Body.raiseB vErr : Body PCall String)) ()).fate
      = Fate.failed vErr
    ∧ (trampolineRun mainThreadSync execStd
        (fun _ : Unit => (Body.raiseB vErr : Body PCall String)) ()).result
      = Except.error vErr :=
  ⟨rfl, trampoline_unhandled_failure_propagates PCall String Unit execStd
      (fun _ => .raiseB vErr) () vErr rfl⟩

/-- Helper: under a synchronous executor, if every failure a pending call
raises is an instance of `Exception`, the loop never leaks a failure (the
task is never abandoned), and any error result of the run is a task failure,
i.e. a failure that was delivered into the task body and escaped it. -/
theorem go_no_leak {C V : Type} (execCall : C → Except Exc (PyVal C V))
    (hcall : ∀ c e, execCall c = Except.error e → e.isException = true) :
    ∀ (b : Body C V) (m : RMode C V),
      (go mainThreadSync execCall b m).fate ≠ Fate.abandoned
      ∧ ∀ e, (go mainThreadSync execCall b m).result = Except.error e →
          (go mainThreadSync execCall b m).fate = Fate.failed e := by
  intro b
  induction b with
  | ret v =>
      intro m
      exact ⟨fun h => Fate.noConfusion h, fun e h => Except.noConfusion h⟩
  | raiseB e0 =>
      intro m
      exact ⟨fun h => Fate.noConfusion h,
        fun e h => congrArg Fate.failed (Except.error.inj h)⟩
  | block d rest ih =>
      intro m
      exact ih m
  | switchP out k ih =>
      intro m
      rcases m with _ | stale
      · cases out with
        | pynone => exact ih _ _
        | val v3 => exact ih _ _
        | tup c =>
            rw [go.eq_4]
            simp only [mainThreadSync, pickRes]
            generalize hg : execCall c = w
            cases w with
            | ok v3 => exact ih _ _
            | error e3 =>
                simp only [hcall c e3 hg, if_true]
                exact ih _ _
      · cases stale with
        | pynone => exact ih _ _
        | val v3 => exact ih _ _
        | tup c =>
            rw [go.eq_4]
            simp only [mainThreadSync, pickRes]
            generalize hg : execCall c = w
            cases w with
            | ok v3 => exact ih _ _
            | error e3 =>
                simp only [hcall c e3 hg, if_true]
                exact ih _ _

/-- C6 amended: for every body, provided every failure the directly-invoked
pending calls raise is an instance of `Exception`, the loop captures each
such failure and re-delivers it into the task: no failure ever propagates
out of the loop uncaught (the fate is never `abandoned`, and an error result
of the run can only be a failure that escaped the task body itself). -/
theorem trampoline_exception_failures_captured :
    ∀ (C V A : Type) (execCall : C → Except Exc (PyVal C V))
      (func : A → Body C V) (args : A),
      (∀ c e, execCall c = Except.error e → e.isException = true) →
      (trampolineRun mainThreadSync execCall func args).fate ≠ Fate.abandoned
      ∧ ∀ e, (trampolineRun mainThreadSync execCall func args).result = Except.error e →
          (trampolineRun mainThreadSync execCall func args).fate = Fate.failed e := by
  intro C V A execCall func args hcall
  exact go_no_leak execCall hcall (func args) .normal

/-- Witness for C6 amended: with calls that only raise `Exception` kinds,
running the C1 scenario body never abandons the task. -/
theorem trampoline_exception_failures_captured_witness :
    (∀ c e, execExcOnly c = Except.error e → e.isException = true)
    ∧ (trampolineRun mainThreadSync execExcOnly (fun _ : Unit => bodyC1) ()).fate
        ≠ Fate.abandoned := by
  have hc : ∀ c e, execExcOnly c = Except.error e → e.isException = true := by
    intro c e h
    cases c with
    | raiseC e0 =>
        injection h with h2
        subst h2
        rfl
    | sleepC s => exact Except.noConfusion h
    | userC n => exact Except.noConfusion h
  exact ⟨hc, (trampoline_exception_failures_captured PCall String Unit execExcOnly
      (fun _ => bodyC1) () hc).1⟩

/-- Helper: from any attempt index, if the matcher keeps returning empty and
the clock stays below the timeout for `j` attempts and reaches it on attempt
`j`, the loop stops after exactly `j + 1` matcher invocations, raising in
strict mode and returning `None` otherwise. -/
theorem qpath_never_match_aux {M : Type} (matchQ : Nat → List M)
    (elapsed : Nat → Int) (timeout : Int) :
    ∀ (j i f : Nat), (∀ d, matchQ (i + d) = []) →
      (∀ d, d < j → elapsed (i + d) < timeout) →
      timeout ≤ elapsed (i + j) →
      qpath matchQ elapsed timeout true (f + j + 1) i
          = some (.error notFoundExc, j + 1)
      ∧ qpath matchQ elapsed timeout false (f + j + 1) i
          = some (.ok .noneResult, j + 1) := by
  intro j
  induction j with
  | zero =>
      intro i f h1 h2 h3
      have hm : matchQ i = [] := by simpa using h1 0
      have ht : timeout ≤ elapsed i := by simpa using h3
      constructor <;> simp [qpath, hm, ht]
  | succ j ih =>
      intro i f h1 h2 h3
      have hm : matchQ i = [] := by simpa using h1 0
      have he : ¬ timeout ≤ elapsed i := by
        have h0 : elapsed (i + 0) < timeout := h2 0 (Nat.succ_pos j)
        simpa using not_le.2 (by simpa using h0)
      have h1x : ∀ d, matchQ (i + 1 + d) = [] := by
        intro d
        have := h1 (d + 1)
        rwa [show i + (d + 1) = i + 1 + d by omega] at this
      have h2x : ∀ d, d < j → elapsed (i + 1 + d) < timeout := by
        intro d hd
        have := h2 (d + 1) (by omega)
        rwa [show i + (d + 1) = i + 1 + d by omega] at this
      have h3x : timeout ≤ elapsed (i + 1 + j) := by
        rwa [show i + (j + 1) = i + 1 + j by omega] at h3
      obtain ⟨ha, hb⟩ := ih (i + 1) f h1x h2x h3x
      constructor
      · show qpath matchQ elapsed timeout true (Nat.succ (f + (j + 1))) i = _
        rw [qpath.eq_2]
        simp only [hm]
        rw [if_neg he]
        rw [show f + (j + 1) = f + j + 1 from rfl, ha]
      · show qpath matchQ elapsed timeout false (Nat.succ (f + (j + 1))) i = _
        rw [qpath.eq_2]
        simp only [hm]
        rw [if_neg he]
        rw [show f + (j + 1) = f + j + 1 from rfl, hb]

/-- C7: with a matcher that never returns a non-empty result, once the
elapsed time reaches the timeout (on attempt `j`, all earlier readings being
below it), `qpath` with `strict = true` raises the NotFound failure
(`RuntimeError`), and with `strict = false` it returns the empty result
(`None`) instead of raising; either way the matcher was invoked `j + 1`
times. -/
theorem qpath_strict_raises_nonstrict_returns :
    ∀ (M : Type) (matchQ : Nat → List M) (elapsed : Nat → Int)
      (timeout : Int) (j f : Nat),
      (∀ i, matchQ i = []) →
      (∀ i, i < j → elapsed i < timeout) →
      timeout ≤ elapsed j →
      qpath matchQ elapsed timeout true (f + j + 1) 0
          = some (.error notFoundExc, j + 1)
      ∧ qpath matchQ elapsed timeout false (f + j + 1) 0
          = some (.ok .noneResult, j + 1) := by
  intro M matchQ elapsed timeout j f h1 h2 h3
  exact qpath_never_match_aux matchQ elapsed timeout j 0 f
    (fun d => by simpa using h1 d)
    (fun d hd => by simpa using h2 d hd)
    (by simpa using h3)

/-- Witness for C7: empty matcher, clock reading `i` on attempt `i`,
timeout 2: the loop stops on attempt 2 after 3 matcher invocations. -/
theorem qpath_strict_raises_nonstrict_returns_witness :
    (∀ i : Nat, (fun _ : Nat => ([] : List Nat)) i = [])
    ∧ (∀ i : Nat, i < 2 → ((i : Int) : Int) < 2)
    ∧ (2 : Int) ≤ ((2 : Nat) : Int)
    ∧ qpath (fun _ => ([] : List Nat)) (fun i => (i : Int)) 2 true 3 0
        = some (.error notFoundExc, 3)
    ∧ qpath (fun _ => ([] : List Nat)) (fun i => (i : Int)) 2 false 3 0
        = some (.ok .noneResult, 3) := by
  have h1 : ∀ i : Nat, (fun _ : Nat => ([] : List Nat)) i = [] := fun _ => rfl
  have h2 : ∀ i : Nat, i < 2 → ((fun i : Nat => (i : Int)) i) < 2 := by
    intro i hi
    show (i : Int) < 2
    exact_mod_cast hi
  have h3 : (2 : Int) ≤ ((fun i : Nat => (i : Int)) 2) := by norm_num
  obtain ⟨ha, hb⟩ := qpath_strict_raises_nonstrict_returns Nat
    (fun _ => ([] : List Nat)) (fun i => (i : Int)) 2 2 0 h1 h2 h3
  exact ⟨fun _ => rfl, fun i hi => by exact_mod_cast hi, by norm_num, ha, hb⟩

/-- Helper: if the first `j` attempts all come back empty with the clock
below the timeout, and attempt `j` returns a non-empty result, that result
is returned at once, whatever the timeout and the clock reading on attempt
`j` are: the match test precedes the timeout test. -/
theorem qpath_found_aux {M : Type} (matchQ : Nat → List M)
    (elapsed : Nat → Int) (timeout : Int) (strict : Bool) :
    ∀ (j i f : Nat),
      (∀ d, d < j → matchQ (i + d) = [] ∧ elapsed (i + d) < timeout) →
      matchQ (i + j) ≠ [] →
      qpath matchQ elapsed timeout strict (f + j + 1) i
          = some (.ok (.found (matchQ (i + j))), j + 1) := by
  intro j
  induction j with
  | zero =>
      intro i f h1 h2
      have h2i : matchQ i ≠ [] := by simpa using h2
      cases hm : matchQ i with
      | nil => exact absurd hm h2i
      | cons x xs => simp [qpath, hm]
  | succ j ih =>
      intro i f h1 h2
      obtain ⟨hm, he⟩ := h1 0 (Nat.succ_pos j)
      have hm0 : matchQ i = [] := by simpa using hm
      have he0 : ¬ timeout ≤ elapsed i := by
        simpa using not_le.2 (by simpa using he)
      have h1x : ∀ d, d < j → matchQ (i + 1 + d) = [] ∧ elapsed (i + 1 + d) < timeout := by
        intro d hd
        have := h1 (d + 1) (by omega)
        rwa [show i + (d + 1) = i + 1 + d by omega] at this
      have h2x : matchQ (i + 1 + j) ≠ [] := by
        have := h2
        rwa [show i + (j + 1) = i + 1 + j by omega] at this
      have hr := ih (i + 1) f h1x h2x
      rw [show (i + 1) + j = i + (j + 1) by omega] at hr
      show qpath matchQ elapsed timeout strict (Nat.succ (f + (j + 1))) i = _
      rw [qpath.eq_2]
      simp only [hm0]
      rw [if_neg he0]
      rw [show f + (j + 1) = f + j + 1 from rfl, hr]

/-- C10: for every timeout value, including zero and negative ones, `qpath`
invokes the matcher at least once (the invocation count in the conclusion is
`j + 1 ≥ 1`, and the case `j = 0` has no hypotheses on the clock or
timeout), and whenever the invocation on attempt `j` returns a non-empty
result, that result is returned immediately, with no constraint relating
`elapsed j` to the timeout: the match test precedes the timeout test. -/
theorem qpath_match_test_precedes_timeout_test :
    ∀ (M : Type) (matchQ : Nat → List M) (elapsed : Nat → Int)
      (timeout : Int) (strict : Bool) (j f : Nat),
      (∀ i, i < j → matchQ i = [] ∧ elapsed i < timeout) →
      matchQ j ≠ [] →
      qpath matchQ elapsed timeout strict (f + j + 1) 0
          = some (.ok (.found (matchQ j)), j + 1) := by
  intro M matchQ elapsed timeout strict j f h1 h2
  have hr := qpath_found_aux matchQ elapsed timeout strict j 0 f
    (fun d hd => by simpa using h1 d hd) (by simpa using h2)
  simpa using hr

/-- Witness for C10: a matcher that matches on the very first attempt, with
a negative timeout and the clock far past it: the result is still returned,
after exactly one matcher invocation. -/
theorem qpath_match_test_precedes_timeout_test_witness :
    (∀ i : Nat, i < 0 → (fun _ : Nat => [7]) i = ([] : List Nat)
        ∧ ((fun _ : Nat => (100 : Int)) i) < (-5 : Int))
    ∧ ([7] : List Nat) ≠ []
    ∧ qpath (fun _ => ([7] : List Nat)) (fun _ => (100 : Int)) (-5) true 1 0
        = some (.ok (.found [7]), 1) := by
  have h1 : ∀ i : Nat, i < 0 → (fun _ : Nat => [7]) i = ([] : List Nat)
      ∧ ((fun _ : Nat => (100 : Int)) i) < (-5 : Int) :=
    fun i hi => absurd hi (Nat.not_lt_zero i)
  have h2 : (fun _ : Nat => ([7] : List Nat)) 0 ≠ [] := by simp
  exact ⟨h1, by simp,
    qpath_match_test_precedes_timeout_test Nat (fun _ => [7]) (fun _ => 100)
      (-5) true 0 0 h1 h2⟩
